import Mathlib

/-!
Verification of the expense-tracker core (src/src/App.js).

The component state consists of
  - expenses  : the ordered collection of expense records (newest first),
  - formData  : the three staged form fields (amount, date, note),
  - editingId : the id of the record being edited, or none for add-mode.

The event handlers are translated below as pure state transformers.
Persistence uses a JSON array-of-objects encoding, modelled at the level
of JSON values (JSON.stringify and JSON.parse of the host runtime are the
external text layer).
-/

/-- One expense record: `{ id, amount, date, note }` as created by
`handleFormSubmit` in App.js.  The id is a millisecond timestamp
(`Date.now()`), modelled as a natural number; the three fields stay the
strings the user typed. -/
structure ExpenseRecord where
  id : Nat
  amount : String
  date : String
  note : String
deriving DecidableEq, Repr

/-- The form state object: `{ amount, date, note }`. -/
structure FormDraft where
  amount : String
  date : String
  note : String
deriving DecidableEq, Repr

/-- `INITIAL_FORM_STATE` from App.js line 6: all three fields empty. -/
def INITIAL_FORM_STATE : FormDraft :=
  { amount := "", date := "", note := "" }

/-- The component-local state of `App`: the `expenses`, `formData` and
`editingId` pieces of `useState`.  `editingId = none` means add-mode. -/
structure AppState where
  expenses : List ExpenseRecord
  formData : FormDraft
  editingId : Option Nat
deriving DecidableEq, Repr

/-- The initial state: empty collection, empty draft, no edit session. -/
def initialState : AppState :=
  { expenses := [], formData := INITIAL_FORM_STATE, editingId := none }

/-- `resetForm` (App.js lines 111-114): reset the draft and leave edit
mode.  The Cancel button invokes exactly this function, so it is also the
model of the spec operation CancelEdit. -/
def resetForm (s : AppState) : AppState :=
  { s with formData := INITIAL_FORM_STATE, editingId := none }

/-- Outcome of a form submission: the validation guard at App.js lines
64-67 (`alert` then early return) is the spec's ValidationError; otherwise
the handler produces the next state. -/
inductive SubmitOutcome where
  | validationError : SubmitOutcome
  | ok : AppState → SubmitOutcome
deriving DecidableEq, Repr

/-- `handleFormSubmit` (App.js lines 60-89).  A field is falsy exactly
when it is the empty string.  In edit-mode the record whose id matches
`editingId` gets the draft fields spread over it (`\x7b ...expense,
...formData \x7d`, id preserved); in add-mode a record with id
`Date.now()` (the `now` argument) is prepended.  Both branches end in
`resetForm`. -/
def handleFormSubmit (now : Nat) (s : AppState) : SubmitOutcome :=
  if s.formData.amount = "" ∨ s.formData.date = "" ∨ s.formData.note = "" then
    .validationError
  else
    match s.editingId with
    | some editingId =>
        .ok (resetForm { s with
          expenses := s.expenses.map (fun expense =>
            if expense.id = editingId then
              { expense with
                amount := s.formData.amount
                date := s.formData.date
                note := s.formData.note }
            else expense) })
    | none =>
        .ok (resetForm { s with
          expenses :=
            { id := now
              amount := s.formData.amount
              date := s.formData.date
              note := s.formData.note } :: s.expenses })

/-- The state after a submission: on ValidationError the early return
leaves the component state untouched. -/
def applySubmit (now : Nat) (s : AppState) : AppState :=
  match handleFormSubmit now s with
  | .validationError => s
  | .ok next => next

/-- `handleDeleteClick` (App.js lines 102-108), on the path where the user
confirms: keep every record whose id differs from the argument.  There is
no error path. -/
def handleDeleteClick (targetId : Nat) (s : AppState) : AppState :=
  { s with expenses := s.expenses.filter (fun expense => expense.id != targetId) }

/-- `handleEditClick` (App.js lines 92-99): record the id and copy the
record's three fields into the draft. -/
def handleEditClick (expense : ExpenseRecord) (s : AppState) : AppState :=
  { s with
    editingId := some expense.id
    formData :=
      { amount := expense.amount, date := expense.date, note := expense.note } }

/-- A user-level Submit carrying its draft, as in the spec operation
Submit(draft): the typed-in draft replaces `formData` and the submit
handler runs; on ValidationError the state (with the typed draft) is
kept. -/
def submitWith (draft : FormDraft) (now : Nat) (s : AppState) : AppState :=
  applySubmit now { s with formData := draft }

/-- The operations of the claim about operation sequences: Submit carries
the draft and the `Date.now()` value of the moment it runs; Delete carries
the id. -/
inductive Op where
  | submit : FormDraft → Nat → Op
  | delete : Nat → Op
deriving DecidableEq, Repr

/-- Apply one operation to the state. -/
def applyOp (op : Op) (s : AppState) : AppState :=
  match op with
  | .submit draft now => submitWith draft now s
  | .delete targetId => handleDeleteClick targetId s

/-- Run a sequence of operations from left to right. -/
def runOps (ops : List Op) (s : AppState) : AppState :=
  match ops with
  | [] => s
  | op :: rest => runOps rest (applyOp op s)

/-- The `Date.now()` values of the Submit operations of a sequence, in
order. -/
def submitTimes (ops : List Op) : List Nat :=
  match ops with
  | [] => []
  | .submit _ now :: rest => now :: submitTimes rest
  | .delete _ :: rest => submitTimes rest

/-- The ids of the records of a collection, in display order. -/
def idsOf (expenses : List ExpenseRecord) : List Nat :=
  expenses.map ExpenseRecord.id

/-- JSON values, as far as the persisted layout needs them: strings,
numbers, arrays and objects (an object is its ordered field list). -/
inductive Json where
  | str : String → Json
  | num : Nat → Json
  | arr : List Json → Json
  | obj : List (String × Json) → Json

/-- The JSON object `JSON.stringify` produces for one record: the fields
in insertion order `id`, `amount`, `date`, `note`, with `id` a number and
the other three strings (the persisted layout of section 6 of the
spec). -/
def ExpenseRecord.toJson (e : ExpenseRecord) : Json :=
  .obj [("id", .num e.id), ("amount", .str e.amount),
        ("date", .str e.date), ("note", .str e.note)]

/-- Serialization of the collection as written by the save effect
(App.js lines 40-46): the JSON array of the record objects, in order. -/
def serializeExpenses (expenses : List ExpenseRecord) : Json :=
  .arr (expenses.map ExpenseRecord.toJson)

/-- Reading one record back from its JSON object: the load effect stores
the parsed value as-is, so a record is recovered exactly from the layout
`\x7bid: number, amount: string, date: string, note: string\x7d`. -/
def decodeRecord (j : Json) : Option ExpenseRecord :=
  match j with
  | .obj [("id", .num i), ("amount", .str a), ("date", .str d), ("note", .str n)] =>
      some { id := i, amount := a, date := d, note := n }
  | _ => none

/-- Reading a list of record objects back, failing if any element fails. -/
def decodeRecordList (js : List Json) : Option (List ExpenseRecord) :=
  match js with
  | [] => some []
  | j :: rest =>
      match decodeRecord j, decodeRecordList rest with
      | some e, some es => some (e :: es)
      | _, _ => none

/-- Deserialization of a persisted value: a JSON array whose elements all
carry the record layout yields the collection, anything else fails. -/
def deserializeExpenses (j : Json) : Option (List ExpenseRecord) :=
  match j with
  | .arr js => decodeRecordList js
  | _ => none

/-- What the load effect (App.js lines 28-37) sees from storage:
`localStorage.getItem` returned null (or the falsy empty string), or a
string was present but `JSON.parse` threw (the catch block swallows the
error), or parsing succeeded with a collection in the persisted
layout.  The code applies no shape validation of its own to the parsed
value. -/
inductive StoredRead where
  | missing : StoredRead
  | unparseable : StoredRead
  | parsed : List ExpenseRecord → StoredRead
deriving DecidableEq, Repr

/-- The load effect: only a successful parse calls `setExpenses`; on a
missing value the `if (savedExpenses)` guard skips the call, and on a
parse error the catch block leaves the state untouched, so no exception
propagates (the function is total). -/
def loadExpenses (read : StoredRead) (s : AppState) : AppState :=
  match read with
  | .missing => s
  | .unparseable => s
  | .parsed expenses => { s with expenses := expenses }

/-! ## Concrete states and drafts used to instantiate the theorems -/

/-- A concrete valid draft. -/
def exDraft : FormDraft :=
  { amount := "12.50", date := "2024-01-01", note := "Lunch" }

/-- A second concrete valid draft. -/
def exDraft2 : FormDraft :=
  { amount := "15.00", date := "2024-01-01", note := "Tea" }

/-- A concrete record with id 1. -/
def exRecord : ExpenseRecord :=
  { id := 1, amount := "9.00", date := "2024-02-02", note := "Coffee" }

/-- A concrete add-mode state with a valid draft staged. -/
def sAdd : AppState :=
  { expenses := [exRecord], formData := exDraft, editingId := none }

/-- A concrete edit-mode state whose session points at the record with
id 1, with a valid draft staged. -/
def sEdit : AppState :=
  { expenses := [exRecord], formData := exDraft, editingId := some 1 }

/-- A concrete edit-mode state whose session points at id 99, an id no
record of the collection carries. -/
def sStale : AppState :=
  { expenses := [exRecord], formData := exDraft, editingId := some 99 }

/-- A concrete state in which the record with id 1 is under edit. -/
def sEditing : AppState :=
  { expenses := [exRecord], formData := INITIAL_FORM_STATE, editingId := some 1 }

/-- A concrete state whose draft has an empty note. -/
def sEmptyNote : AppState :=
  { expenses := [], formData := { amount := "3", date := "2024-01-01", note := "" },
    editingId := none }

/-! ## Helper lemmas -/

lemma handleFormSubmit_invalid (now : Nat) (s : AppState)
    (h : s.formData.amount = "" ∨ s.formData.date = "" ∨ s.formData.note = "") :
    handleFormSubmit now s = SubmitOutcome.validationError := by
  unfold handleFormSubmit
  rw [if_pos h]

lemma handleFormSubmit_add (now : Nat) (s : AppState)
    (hmode : s.editingId = none)
    (hv : ¬ (s.formData.amount = "" ∨ s.formData.date = "" ∨ s.formData.note = "")) :
    handleFormSubmit now s = SubmitOutcome.ok
      { expenses :=
          { id := now, amount := s.formData.amount, date := s.formData.date,
            note := s.formData.note } :: s.expenses,
        formData := INITIAL_FORM_STATE, editingId := none } := by
  unfold handleFormSubmit
  rw [if_neg hv, hmode]
  rfl

lemma handleFormSubmit_edit (now : Nat) (s : AppState) (eid : Nat)
    (hmode : s.editingId = some eid)
    (hv : ¬ (s.formData.amount = "" ∨ s.formData.date = "" ∨ s.formData.note = "")) :
    handleFormSubmit now s = SubmitOutcome.ok
      { expenses := s.expenses.map (fun expense =>
          if expense.id = eid then
            { expense with
              amount := s.formData.amount
              date := s.formData.date
              note := s.formData.note }
          else expense),
        formData := INITIAL_FORM_STATE, editingId := none } := by
  unfold handleFormSubmit
  rw [if_neg hv, hmode]
  rfl

/-! ## Claim theorems -/

/-- C4: when any of the draft fields is empty, Submit stops at the
validation guard with a ValidationError and the state (collection, edit
session, draft) is exactly as before. -/
theorem submit_emptyField_validationError (now : Nat) (s : AppState)
    (h : s.formData.amount = "" ∨ s.formData.date = "" ∨ s.formData.note = "") :
    handleFormSubmit now s = SubmitOutcome.validationError ∧
    applySubmit now s = s := by
  refine ⟨handleFormSubmit_invalid now s h, ?_⟩
  unfold applySubmit
  rw [handleFormSubmit_invalid now s h]

/-- C4 witness: a concrete state with an empty note is rejected and left
unchanged. -/
theorem submit_emptyField_validationError_witness :
    (sEmptyNote.formData.amount = "" ∨ sEmptyNote.formData.date = "" ∨
      sEmptyNote.formData.note = "") ∧
    (handleFormSubmit 4 sEmptyNote = SubmitOutcome.validationError ∧
      applySubmit 4 sEmptyNote = sEmptyNote) :=
  ⟨by decide, submit_emptyField_validationError 4 sEmptyNote (by decide)⟩

/-- C2: in add-mode with all three fields non-empty, Submit succeeds and
the new collection is the new record (fresh id `now`, the draft's three
fields) prepended to the old collection, so its size grows by exactly
one. -/
theorem submit_addMode_prepends (now : Nat) (s : AppState)
    (hmode : s.editingId = none)
    (ha : s.formData.amount ≠ "") (hd : s.formData.date ≠ "") (hn : s.formData.note ≠ "") :
    handleFormSubmit now s = SubmitOutcome.ok
      { expenses :=
          { id := now, amount := s.formData.amount, date := s.formData.date,
            note := s.formData.note } :: s.expenses,
        formData := INITIAL_FORM_STATE, editingId := none } ∧
    (applySubmit now s).expenses.length = s.expenses.length + 1 := by
  have hv : ¬ (s.formData.amount = "" ∨ s.formData.date = "" ∨ s.formData.note = "") := by
    simp [ha, hd, hn]
  refine ⟨handleFormSubmit_add now s hmode hv, ?_⟩
  unfold applySubmit
  rw [handleFormSubmit_add now s hmode hv]
  simp

/-- C2 witness: submitting the concrete draft in the concrete add-mode
state prepends the new record. -/
theorem submit_addMode_prepends_witness :
    (sAdd.editingId = none ∧ sAdd.formData.amount ≠ "" ∧ sAdd.formData.date ≠ "" ∧
      sAdd.formData.note ≠ "") ∧
    (handleFormSubmit 7 sAdd = SubmitOutcome.ok
      { expenses :=
          { id := 7, amount := sAdd.formData.amount, date := sAdd.formData.date,
            note := sAdd.formData.note } :: sAdd.expenses,
        formData := INITIAL_FORM_STATE, editingId := none } ∧
     (applySubmit 7 sAdd).expenses.length = sAdd.expenses.length + 1) :=
  ⟨by decide,
   submit_addMode_prepends 7 sAdd (by decide) (by decide) (by decide) (by decide)⟩

/-- C3: in edit-mode with all three fields non-empty and the session id
present in the collection, Submit succeeds with a collection of the same
size in which the record at each position either keeps exactly its old
value (when its id differs from the session id) or keeps its id and
position and takes the draft's amount, date and note. -/
theorem submit_editMode_updatesInPlace (now : Nat) (s : AppState) (eid : Nat)
    (hmode : s.editingId = some eid)
    (hmem : ∃ r ∈ s.expenses, r.id = eid)
    (ha : s.formData.amount ≠ "") (hd : s.formData.date ≠ "") (hn : s.formData.note ≠ "") :
    ∃ next, handleFormSubmit now s = SubmitOutcome.ok next ∧
      next.expenses.length = s.expenses.length ∧
      ∀ i (h1 : i < s.expenses.length) (h2 : i < next.expenses.length),
        (if (s.expenses.get ⟨i, h1⟩).id = eid then
          next.expenses.get ⟨i, h2⟩ =
            { s.expenses.get ⟨i, h1⟩ with
              amount := s.formData.amount
              date := s.formData.date
              note := s.formData.note }
        else next.expenses.get ⟨i, h2⟩ = s.expenses.get ⟨i, h1⟩) := by
  have hv : ¬ (s.formData.amount = "" ∨ s.formData.date = "" ∨ s.formData.note = "") := by
    simp [ha, hd, hn]
  refine ⟨_, handleFormSubmit_edit now s eid hmode hv, by simp, ?_⟩
  intro i h1 h2
  simp only [List.get_eq_getElem, List.getElem_map]
  by_cases hid : s.expenses[i].id = eid
  · rw [if_pos hid, if_pos hid]
  · rw [if_neg hid, if_neg hid]

/-- C3 witness: editing the concrete record with the concrete draft keeps
the size and rewrites the three fields in place. -/
theorem submit_editMode_updatesInPlace_witness :
    (sEdit.editingId = some 1 ∧ (∃ r ∈ sEdit.expenses, r.id = 1) ∧
      sEdit.formData.amount ≠ "" ∧ sEdit.formData.date ≠ "" ∧ sEdit.formData.note ≠ "") ∧
    (∃ next, handleFormSubmit 8 sEdit = SubmitOutcome.ok next ∧
      next.expenses.length = sEdit.expenses.length ∧
      ∀ i (h1 : i < sEdit.expenses.length) (h2 : i < next.expenses.length),
        (if (sEdit.expenses.get ⟨i, h1⟩).id = 1 then
          next.expenses.get ⟨i, h2⟩ =
            { sEdit.expenses.get ⟨i, h1⟩ with
              amount := sEdit.formData.amount
              date := sEdit.formData.date
              note := sEdit.formData.note }
        else next.expenses.get ⟨i, h2⟩ = sEdit.expenses.get ⟨i, h1⟩)) :=
  ⟨⟨by decide, ⟨exRecord, by simp [sEdit], by decide⟩, by decide, by decide, by decide⟩,
   submit_editMode_updatesInPlace 8 sEdit 1 (by decide)
     ⟨exRecord, by simp [sEdit], by decide⟩ (by decide) (by decide) (by decide)⟩

lemma map_edit_of_absent (l : List ExpenseRecord) (eid : Nat) (a d n : String)
    (habs : ∀ e ∈ l, e.id ≠ eid) :
    l.map (fun expense =>
      if expense.id = eid then
        { expense with amount := a, date := d, note := n }
      else expense) = l := by
  induction l with
  | nil => rfl
  | cons e rest ih =>
      have he : e.id ≠ eid := habs e (by simp)
      have hrest : ∀ x ∈ rest, x.id ≠ eid := fun x hx => habs x (by simp [hx])
      simp [List.map_cons, if_neg he, ih hrest]

/-- C10: in edit-mode with valid fields but a session id matching no
record, Submit succeeds without error, the collection is unchanged (the
map touches nothing), and the session and draft are still cleared. -/
theorem submit_staleEditSession_noop (now : Nat) (s : AppState) (eid : Nat)
    (hmode : s.editingId = some eid)
    (habs : ∀ e ∈ s.expenses, e.id ≠ eid)
    (ha : s.formData.amount ≠ "") (hd : s.formData.date ≠ "") (hn : s.formData.note ≠ "") :
    handleFormSubmit now s = SubmitOutcome.ok
      { expenses := s.expenses, formData := INITIAL_FORM_STATE, editingId := none } := by
  have hv : ¬ (s.formData.amount = "" ∨ s.formData.date = "" ∨ s.formData.note = "") := by
    simp [ha, hd, hn]
  rw [handleFormSubmit_edit now s eid hmode hv,
    map_edit_of_absent s.expenses eid s.formData.amount s.formData.date s.formData.note habs]

/-- C10 witness: the concrete stale-session state submits to the same
collection with the session and draft cleared. -/
theorem submit_staleEditSession_noop_witness :
    (sStale.editingId = some 99 ∧ (∀ e ∈ sStale.expenses, e.id ≠ 99) ∧
      sStale.formData.amount ≠ "" ∧ sStale.formData.date ≠ "" ∧ sStale.formData.note ≠ "") ∧
    handleFormSubmit 9 sStale = SubmitOutcome.ok
      { expenses := sStale.expenses, formData := INITIAL_FORM_STATE, editingId := none } :=
  ⟨by decide,
   submit_staleEditSession_noop 9 sStale 99 (by decide) (by decide) (by decide) (by decide)
     (by decide)⟩

/-- C9: whenever Submit succeeds (in either mode), the next state has no
edit session and an empty draft, which is exactly the session and draft
that resetForm (the Cancel handler, the spec's CancelEdit) produces. -/
theorem submit_success_clearsSessionAndDraft (now : Nat) (s next : AppState)
    (h : handleFormSubmit now s = SubmitOutcome.ok next) :
    next.editingId = none ∧ next.formData = INITIAL_FORM_STATE ∧
    next.editingId = (resetForm s).editingId ∧ next.formData = (resetForm s).formData := by
  unfold handleFormSubmit at h
  by_cases hv : s.formData.amount = "" ∨ s.formData.date = "" ∨ s.formData.note = ""
  · rw [if_pos hv] at h
    exact absurd h (by simp)
  · rw [if_neg hv] at h
    cases hm : s.editingId with
    | some eid =>
        rw [hm] at h
        injection h with h
        rw [← h]
        simp [resetForm]
    | none =>
        rw [hm] at h
        injection h with h
        rw [← h]
        simp [resetForm]

/-- C9 witness: the concrete add-mode submission ends with a cleared
session and an empty draft, as after resetForm. -/
theorem submit_success_clearsSessionAndDraft_witness :
    handleFormSubmit 7 sAdd = SubmitOutcome.ok (applySubmit 7 sAdd) ∧
    ((applySubmit 7 sAdd).editingId = none ∧
     (applySubmit 7 sAdd).formData = INITIAL_FORM_STATE ∧
     (applySubmit 7 sAdd).editingId = (resetForm sAdd).editingId ∧
     (applySubmit 7 sAdd).formData = (resetForm sAdd).formData) :=
  ⟨by decide, submit_success_clearsSessionAndDraft 7 sAdd (applySubmit 7 sAdd) (by decide)⟩

/-- C6: deleting an id no record carries filters out nothing, so the
whole state (collection included) is returned unchanged, and the handler
has no error path. -/
theorem delete_absent_noop (targetId : Nat) (s : AppState)
    (habs : ∀ e ∈ s.expenses, e.id ≠ targetId) :
    handleDeleteClick targetId s = s := by
  unfold handleDeleteClick
  have hfilter : s.expenses.filter (fun expense => expense.id != targetId) = s.expenses := by
    rw [List.filter_eq_self]
    intro e he
    simpa using habs e he
  rw [hfilter]

/-- C6 witness: deleting id 42 from the concrete state, whose only record
has id 1, changes nothing. -/
theorem delete_absent_noop_witness :
    (∀ e ∈ sAdd.expenses, e.id ≠ 42) ∧ handleDeleteClick 42 sAdd = sAdd :=
  ⟨by decide, delete_absent_noop 42 sAdd (by decide)⟩

lemma decodeRecord_toJson (e : ExpenseRecord) :
    decodeRecord e.toJson = some e := by
  simp [ExpenseRecord.toJson, decodeRecord]

lemma decodeRecordList_map_toJson (es : List ExpenseRecord) :
    decodeRecordList (es.map ExpenseRecord.toJson) = some es := by
  induction es with
  | nil => rfl
  | cons e rest ih =>
      simp [decodeRecordList, decodeRecord_toJson, ih]

/-- C7: serializing a collection to the persisted JSON-array-of-objects
layout and deserializing it again yields the same records with the same
field values in the same order. -/
theorem serialize_deserialize_roundTrip (expenses : List ExpenseRecord) :
    deserializeExpenses (serializeExpenses expenses) = some expenses := by
  simp [serializeExpenses, deserializeExpenses, decodeRecordList_map_toJson]

/-- C8: at startup the collection is empty; the load effect replaces it
with the parsed collection exactly when parsing succeeded, and on a
missing or unparseable stored value it stays empty, the parse error
having been swallowed by the catch block (loadExpenses is total, so
nothing propagates). -/
theorem load_missingOrCorrupt_leavesEmpty (read : StoredRead) :
    ((read = StoredRead.missing ∨ read = StoredRead.unparseable) →
      (loadExpenses read initialState).expenses = []) ∧
    (∀ l, read = StoredRead.parsed l → (loadExpenses read initialState).expenses = l) := by
  cases read <;> simp [loadExpenses, initialState]

/-- C8 witness: a corrupted (unparseable) stored value leaves the
collection empty. -/
theorem load_missingOrCorrupt_leavesEmpty_witness :
    (loadExpenses StoredRead.unparseable initialState).expenses = [] :=
  (load_missingOrCorrupt_leavesEmpty StoredRead.unparseable).1 (Or.inr rfl)

/-- C5 counterexample: in the concrete state whose session points at the
sole record (id 1), Delete(1) empties the collection but the edit session
still holds id 1 — it is not cleared to none as the claim states. -/
theorem delete_activeSession_counterexample :
    (handleDeleteClick 1 sEditing).expenses = [] ∧
    (handleDeleteClick 1 sEditing).editingId = some 1 ∧
    (handleDeleteClick 1 sEditing).editingId ≠ none := by
  decide

/-- C5 (amended): Delete removes every record carrying the id, but leaves
the edit session untouched: when the session held the deleted id it still
holds it afterwards, pointing at a record that no longer exists. -/
theorem delete_activeSession_keepsSession (targetId : Nat) (s : AppState)
    (h : s.editingId = some targetId) :
    (handleDeleteClick targetId s).editingId = some targetId ∧
    ∀ e ∈ (handleDeleteClick targetId s).expenses, e.id ≠ targetId := by
  constructor
  · simpa [handleDeleteClick] using h
  · intro e he
    simp only [handleDeleteClick, List.mem_filter, bne_iff_ne, ne_eq] at he
    exact he.2

/-- C5 (amended) witness: deleting the record under edit in the concrete
state keeps the session at id 1 while no record with id 1 remains. -/
theorem delete_activeSession_keepsSession_witness :
    sEditing.editingId = some 1 ∧
    ((handleDeleteClick 1 sEditing).editingId = some 1 ∧
     ∀ e ∈ (handleDeleteClick 1 sEditing).expenses, e.id ≠ 1) :=
  ⟨rfl, delete_activeSession_keepsSession 1 sEditing rfl⟩

lemma idsOf_filter_sublist (targetId : Nat) (l : List ExpenseRecord) :
    (idsOf (l.filter (fun e => e.id != targetId))).Sublist (idsOf l) :=
  List.Sublist.map ExpenseRecord.id (List.filter_sublist l)

lemma idsOf_map_edit (l : List ExpenseRecord) (eid : Nat) (a d n : String) :
    idsOf (l.map (fun expense =>
      if expense.id = eid then
        { expense with amount := a, date := d, note := n }
      else expense)) = idsOf l := by
  induction l with
  | nil => rfl
  | cons e rest ih =>
      have hid : (if e.id = eid then
          ({ e with amount := a, date := d, note := n } : ExpenseRecord)
        else e).id = e.id := by
        by_cases he : e.id = eid <;> simp [he]
      simp only [idsOf, List.map_cons] at ih ⊢
      rw [hid, ih]

lemma submitWith_invalid_expenses (draft : FormDraft) (now : Nat) (s : AppState)
    (hv : draft.amount = "" ∨ draft.date = "" ∨ draft.note = "") :
    (submitWith draft now s).expenses = s.expenses := by
  simp [submitWith, applySubmit, handleFormSubmit, hv]

lemma submitWith_edit_ids (draft : FormDraft) (now : Nat) (s : AppState) (eid : Nat)
    (hv : ¬ (draft.amount = "" ∨ draft.date = "" ∨ draft.note = ""))
    (hm : s.editingId = some eid) :
    idsOf (submitWith draft now s).expenses = idsOf s.expenses := by
  simp [submitWith, applySubmit, handleFormSubmit, hv, hm, resetForm, idsOf_map_edit]

lemma submitWith_add_ids (draft : FormDraft) (now : Nat) (s : AppState)
    (hv : ¬ (draft.amount = "" ∨ draft.date = "" ∨ draft.note = ""))
    (hm : s.editingId = none) :
    idsOf (submitWith draft now s).expenses = now :: idsOf s.expenses := by
  simp [submitWith, applySubmit, handleFormSubmit, hv, hm, resetForm, idsOf]

lemma nodup_idsOf_runOps (ops : List Op) (s : AppState)
    (hnd : (idsOf s.expenses).Nodup)
    (hbound : ∀ i ∈ idsOf s.expenses, ∀ t ∈ submitTimes ops, i < t)
    (hp : (submitTimes ops).Pairwise (· < ·)) :
    (idsOf (runOps ops s).expenses).Nodup := by
  induction ops generalizing s with
  | nil => exact hnd
  | cons op rest ih =>
      show (idsOf (runOps rest (applyOp op s)).expenses).Nodup
      cases op with
      | delete targetId =>
          have hsub := idsOf_filter_sublist targetId s.expenses
          apply ih
          · exact List.Nodup.sublist hsub hnd
          · intro i hi t ht
            exact hbound i (hsub.subset hi) t ht
          · exact hp
      | submit draft now =>
          by_cases hv : draft.amount = "" ∨ draft.date = "" ∨ draft.note = ""
          · apply ih
            · rw [show applyOp (Op.submit draft now) s = submitWith draft now s from rfl,
                idsOf, submitWith_invalid_expenses draft now s hv]
              exact hnd
            · intro i hi t ht
              rw [show applyOp (Op.submit draft now) s = submitWith draft now s from rfl,
                idsOf, submitWith_invalid_expenses draft now s hv] at hi
              exact hbound i hi t (List.mem_cons_of_mem now ht)
            · exact hp.of_cons
          · cases hm : s.editingId with
            | some eid =>
                apply ih
                · rw [show applyOp (Op.submit draft now) s = submitWith draft now s from rfl,
                    submitWith_edit_ids draft now s eid hv hm]
                  exact hnd
                · intro i hi t ht
                  rw [show applyOp (Op.submit draft now) s = submitWith draft now s from rfl,
                    submitWith_edit_ids draft now s eid hv hm] at hi
                  exact hbound i hi t (List.mem_cons_of_mem now ht)
                · exact hp.of_cons
            | none =>
                apply ih
                · rw [show applyOp (Op.submit draft now) s = submitWith draft now s from rfl,
                    submitWith_add_ids draft now s hv hm]
                  refine List.nodup_cons.mpr ⟨?_, hnd⟩
                  intro hmem
                  exact absurd (hbound now hmem now (List.mem_cons_self now _))
                    (lt_irrefl now)
                · intro i hi t ht
                  rw [show applyOp (Op.submit draft now) s = submitWith draft now s from rfl,
                    submitWith_add_ids draft now s hv hm] at hi
                  rcases List.mem_cons.mp hi with h1 | h2
                  · subst h1
                    exact List.rel_of_pairwise_cons hp ht
                  · exact hbound i h2 t (List.mem_cons_of_mem now ht)
                · exact hp.of_cons

/-- C1 counterexample: two add-mode submissions sharing the same
`Date.now()` value (the same millisecond) produce two records with the
same id, so the claimed invariant fails on the code as stated. -/
theorem uniqueIds_counterexample :
    ¬ (idsOf (runOps [Op.submit exDraft 5, Op.submit exDraft2 5] initialState).expenses).Nodup := by
  decide

/-- C1 (amended): for every sequence of Submit and Delete operations from
the empty collection in which the `Date.now()` values of successive
submissions are strictly increasing (no two submissions within the same
millisecond), no two records of the resulting collection share an id. -/
theorem uniqueIds_of_increasing_submitTimes (ops : List Op)
    (hp : (submitTimes ops).Pairwise (· < ·)) :
    (idsOf (runOps ops initialState).expenses).Nodup := by
  apply nodup_idsOf_runOps ops initialState
  · simp [initialState, idsOf]
  · simp [initialState, idsOf]
  · exact hp

/-- C1 (amended) witness: a concrete submit-delete-submit sequence with
increasing times yields pairwise distinct ids. -/
theorem uniqueIds_of_increasing_submitTimes_witness :
    (submitTimes [Op.submit exDraft 5, Op.delete 5, Op.submit exDraft2 6]).Pairwise (· < ·) ∧
    (idsOf (runOps [Op.submit exDraft 5, Op.delete 5, Op.submit exDraft2 6]
      initialState).expenses).Nodup :=
  ⟨by decide, uniqueIds_of_increasing_submitTimes _ (by decide)⟩
